import Mathlib

/-!
# Verification of the transaction confirmation and submission reliability layer

Shallow embedding, in Lean 4, of the confirmation/submission core of the
Dodo volume-bot repository, together with theorems settling the testable
properties of the specification against it.

Embedded source functions:
* `_confirmTransaction`   (SimpleVolumeBot, the signature confirmation poller)
* `_sendAndConfirmTransactionWithRetry` and its inner `abortableResender`
  (JupiterPortalClient, src/jupiter_portal.js)
* `waitForBundleConfirmation` (the bundler script)
* `fundTraderWallet` (SimpleVolumeBot, the funding retry loop)

Network behaviour (RPC responses, errors, the secondary status service) is
an explicit environment consumed by the embedded code, so every run of a
loop is a pure function of that environment and can be evaluated on
concrete inputs.
-/

/-- A `{blockhash, lastValidBlockHeight}` pair as returned by
`getLatestBlockhash`; the lease bounding a transaction's validity. -/
structure BlockhashLease where
  blockhash : String
  lastValidBlockHeight : Nat
  deriving DecidableEq, Repr

/-- The `value` object of a `getSignatureStatus` response: the optional
on-chain error (`status.value.err`) and the optional confirmation status
string. -/
structure SigStatusValue where
  txErr : Option String
  confirmationStatus : Option String
  deriving DecidableEq, Repr

/-- One response of the primary node to a `getSignatureStatus` call:
either a successful RPC reply whose `value` may be null, or a thrown
transport error, flagged by whether its message contains `429`. -/
inductive PollResponse where
  | ok (value : Option SigStatusValue)
  | rpcError (is429 : Bool)
  deriving DecidableEq, Repr

/-- The environment of one `_confirmTransaction` invocation: the result of
the initial `getLatestBlockhash` call (which may itself throw), the stream
of `getSignatureStatus` responses indexed by poll number, the network block
height observable at each polling step, and the verdict of the secondary
(Solscan) status service.

`heights` is never read by the source function — it is recorded here only
so that claims about the network height can be stated; the embedding
ignores it exactly as the source does.

`solscan` models `_checkSolscanStatus`, which is called by the source but
not defined anywhere in the repository snapshot.  Modelled from the spec:
the secondary, independent status-reporting service that, given a
transaction identifier, returns confirmation status independently of the
primary network node; like any network call it may also throw. -/

structure ConfirmEnv where
  latest : Except Unit BlockhashLease
  polls : Nat → PollResponse
  heights : Nat → Nat
  solscan : Except Unit Bool

/-- `status?.value?.err` is set. -/
def statusErrSet : Option SigStatusValue → Bool
  | some v => v.txErr.isSome
  | none => false

/-- `status?.value?.confirmationStatus` is `confirmed` or `finalized`. -/
def statusConfirmed : Option SigStatusValue → Bool
  | some v => v.confirmationStatus = some "confirmed"
              || v.confirmationStatus = some "finalized"
  | none => false

/-- How the polling loop of `_confirmTransaction` exited. -/
inductive LoopExit where
  | failedStatus
  | confirmedStatus
  | fallbackRateLimit
  | fallbackMaxAttempts
  | rethrown
  deriving DecidableEq, Repr

/-- Observable trace of one run of the polling loop: its exit, the number
of `getSignatureStatus` calls made, and the sleeps performed in the
rate-limit branch and in the main polling branch, in order. -/
structure LoopTrace where
  exit : LoopExit
  pollCount : Nat
  rlDelays : List Nat
  mainDelays : List Nat
  deriving DecidableEq, Repr

/-- The `while (attempts < maxAttempts)` loop of `_confirmTransaction`,
with the source's constants `maxAttempts = 5` and
`maxRateLimitRetries = 3`; `initialDelay` is
`this.confirmationSettings.initialDelay`.  One recursive step per loop
iteration; `pollIdx` counts `getSignatureStatus` calls. -/
def confirmLoop (polls : Nat → PollResponse) (initialDelay : Nat)
    (pollIdx attempts rlr : Nat) : LoopTrace :=
  if 5 ≤ attempts then
    { exit := .fallbackMaxAttempts, pollCount := 0, rlDelays := [], mainDelays := [] }
  else
    match polls pollIdx with
    | .ok value =>
        if statusErrSet value then
          { exit := .failedStatus, pollCount := 1, rlDelays := [], mainDelays := [] }
        else if statusConfirmed value then
          { exit := .confirmedStatus, pollCount := 1, rlDelays := [], mainDelays := [] }
        else
          let d := initialDelay * 2 ^ (attempts + 1)
          let rest := confirmLoop polls initialDelay (pollIdx + 1) (attempts + 1) rlr
          { exit := rest.exit, pollCount := rest.pollCount + 1,
            rlDelays := rest.rlDelays, mainDelays := d :: rest.mainDelays }
    | .rpcError is429 =>
        if is429 then
          if 3 < rlr + 1 then
            { exit := .fallbackRateLimit, pollCount := 1, rlDelays := [], mainDelays := [] }
          else
            let d := 1000 * 2 ^ (rlr + 1)
            let rest := confirmLoop polls initialDelay (pollIdx + 1) attempts (rlr + 1)
            { exit := rest.exit, pollCount := rest.pollCount + 1,
              rlDelays := d :: rest.rlDelays, mainDelays := rest.mainDelays }
        else
          { exit := .rethrown, pollCount := 1, rlDelays := [], mainDelays := [] }
termination_by (5 - attempts) + (4 - rlr)
decreasing_by
  all_goals omega

/-- The `confirmationSettings` object of the `SimpleVolumeBot`
constructor. -/
structure ConfirmationSettings where
  maxRetries : Nat
  initialDelay : Nat
  commitment : String

/-- `this.confirmationSettings` as initialised in the constructor. -/
def confirmationSettings : ConfirmationSettings :=
  { maxRetries := 3, initialDelay := 3000, commitment := "confirmed" }

/-- `SimpleVolumeBot._confirmTransaction`: runs the polling loop inside the
outermost `try`; any error reaching the outer handler (a failing
`getLatestBlockhash`, a rethrown non-429 transport error, or a throwing
Solscan fallback) is logged and mapped to `false`. -/
def _confirmTransaction (env : ConfirmEnv) : Bool :=
  match env.latest with
  | .error _ => false
  | .ok _lease =>
    let t := confirmLoop env.polls confirmationSettings.initialDelay 0 0 0
    match t.exit with
    | .failedStatus => false
    | .confirmedStatus => true
    | .rethrown => false
    | .fallbackRateLimit | .fallbackMaxAttempts =>
        match env.solscan with
        | .ok b => b
        | .error _ => false

/-- A poll response that leaves the loop polling: a successful RPC reply
with no on-chain error and no confirmed/finalized status. -/
def isPendingResp : PollResponse → Bool
  | .ok v => !statusErrSet v && !statusConfirmed v
  | .rpcError _ => false

/-- A poll response carrying an explicit on-chain execution error. -/
def isErrResp : PollResponse → Bool
  | .ok v => statusErrSet v
  | .rpcError _ => false

/-- Environment for the `C3` witness: two pending polls, then an explicit
on-chain instruction error. -/
def envC3 : ConfirmEnv :=
  { latest := .ok ⟨"hash3", 100⟩
    polls := fun i =>
      if i < 2 then .ok (some ⟨none, none⟩)
      else .ok (some ⟨some "InstructionError", none⟩)
    heights := fun _ => 0
    solscan := .ok true }

/-- Environment for the `C2` witness: every poll is rate-limited and the
secondary service reports success. -/
def envC2 : ConfirmEnv :=
  { latest := .ok ⟨"hash2", 100⟩
    polls := fun _ => .rpcError true
    heights := fun _ => 0
    solscan := .ok true }

/-- Lease for the `C1` analysis: last valid height 100. -/
def leaseC1 : BlockhashLease := { blockhash := "hash1", lastValidBlockHeight := 100 }

/-- Environment for the `C1` analysis: at every polling step the network
height (101) already exceeds the lease's `lastValidBlockHeight` (100),
while the node keeps reporting the pending status `processed`; the
secondary service reports failure. -/
def envC1 : ConfirmEnv :=
  { latest := .ok leaseC1
    polls := fun _ => .ok (some ⟨none, some "processed"⟩)
    heights := fun _ => 101
    solscan := .ok false }

/-- Environment for the `C10` witness: the first status query throws a
non-429 transport error, which the loop re-throws and the outer handler
absorbs. -/
def envC10 : ConfirmEnv :=
  { latest := .ok ⟨"hash10", 100⟩
    polls := fun _ => .rpcError false
    heights := fun _ => 0
    solscan := .error () }

/-- Outcome of the `confirmTransaction` wait inside one attempt of
`_sendAndConfirmTransactionWithRetry`: it resolves, or it throws an
expiry (`block height exceeded`) error, or some other error. -/
inductive AttemptOutcome where
  | confirmedOk
  | expired
  | otherError
  deriving DecidableEq, Repr

/-- Environment of one `_sendAndConfirmTransactionWithRetry` call, indexed
by 0-based attempt number: the lease returned by
`getLatestBlockhash('finalized')` fetched during that attempt, the
signature assigned by `sendRawTransaction` (or `none` when the send
throws), and how the confirmation wait ends. -/
structure RetryEnv where
  leases : Nat → BlockhashLease
  sendOk : Nat → Option String
  confirmOutcome : Nat → AttemptOutcome

/-- What one attempt of the retry loop did: the lease fetched for it, the
`recentBlockhash` the transaction was re-signed with, and the
network-assigned signature if the send succeeded. -/
structure AttemptRecord where
  lease : BlockhashLease
  signedBlockhash : String
  sig : Option String
  deriving DecidableEq, Repr

/-- Result of the retry loop: the value returned or error thrown, plus the
ordered list of attempts performed. -/
structure RetryResult where
  result : Except String String
  attempts : List AttemptRecord
  deriving Repr

/-- The record produced by attempt `n`: the lease fetched at attempt `n`,
its blockhash written into the re-signed transaction, and the signature of
the send. -/
def attemptRec (env : RetryEnv) (n : Nat) : AttemptRecord :=
  { lease := env.leases n
    signedBlockhash := (env.leases n).blockhash
    sig := env.sendOk n }

/-- The `for (attempt = 1; attempt <= maxAttempts; attempt++)` loop of
`_sendAndConfirmTransactionWithRetry`.  Each iteration re-serializes the
original transaction, fetches a fresh lease, re-signs with its blockhash
and sends; a confirmed wait returns the signature, any error on the final
attempt surfaces as a thrown error.  `attempt` is 0-based here;
`remaining` is the number of attempts still allowed. -/
def sendAndConfirmGo (env : RetryEnv) : (attempt remaining : Nat) → RetryResult
  | _, 0 => { result := .error "no attempts", attempts := [] }
  | attempt, r + 1 =>
      match env.sendOk attempt with
      | none =>
          if r = 0 then
            { result := .error "All attempts failed", attempts := [attemptRec env attempt] }
          else
            let rest := sendAndConfirmGo env (attempt + 1) r
            { result := rest.result, attempts := attemptRec env attempt :: rest.attempts }
      | some sig =>
          match env.confirmOutcome attempt with
          | .confirmedOk =>
              { result := .ok sig, attempts := [attemptRec env attempt] }
          | _ =>
              if r = 0 then
                { result := .error "All attempts failed", attempts := [attemptRec env attempt] }
              else
                let rest := sendAndConfirmGo env (attempt + 1) r
                { result := rest.result, attempts := attemptRec env attempt :: rest.attempts }

/-- `JupiterPortalClient._sendAndConfirmTransactionWithRetry`, with the
source's default `maxAttempts = 3`. -/
def _sendAndConfirmTransactionWithRetry (env : RetryEnv) (maxAttempts : Nat := 3) :
    RetryResult :=
  sendAndConfirmGo env 0 maxAttempts

/-- An attempt fails when its send throws or its confirmation wait does
not resolve successfully. -/
def attemptFails (env : RetryEnv) (n : Nat) : Prop :=
  env.sendOk n = none ∨ env.confirmOutcome n ≠ .confirmedOk

/-- Environment in which every attempt of the retry loop fails: each send
succeeds and assigns a signature, but every confirmation wait ends with a
blockhash-expiry error. -/
def envRetryFail : RetryEnv :=
  { leases := fun n => { blockhash := "w", lastValidBlockHeight := n }
    sendOk := fun _ => some "sigRF"
    confirmOutcome := fun _ => .expired }

/-- One status check inside `fundTraderWallet`'s inner wait loop: either
`getSignatureStatus` succeeded (its `value` may be null) or the check
threw (the inner catch logs it and the loop continues). -/
inductive FundPoll where
  | value (v : Option SigStatusValue)
  | checkThrow
  deriving DecidableEq, Repr

/-- Environment of one `fundTraderWallet` call, indexed by 0-based attempt
number: the signature assigned by `sendTransaction` (or `none` when the
send throws), the status responses of each attempt's wait loop, and the
wall-clock time each status check itself consumes.  Every loop iteration
is modelled as taking at least 1 ms of real time, so that the 30-second
wall-clock ceiling is always reached. -/
structure FundEnv where
  sendOk : Nat → Option String
  polls : Nat → Nat → FundPoll
  checkDur : Nat → Nat → Nat

/-- The `while (Date.now() - startTime < confirmationTimeout)` wait loop
of `fundTraderWallet` (`confirmationTimeout = 30000`): a confirmed or
finalized status returns success; an error status throws, but the inner
catch absorbs it and polling continues; otherwise sleep 2000 ms.  Returns
whether the attempt confirmed before the ceiling. -/
def fundConfirmLoop (polls : Nat → FundPoll) (dur : Nat → Nat) (k t : Nat) : Bool :=
  if _h : t < 30000 then
    match polls k with
    | .value v =>
        if statusConfirmed v then true
        else if statusErrSet v then
          fundConfirmLoop polls dur (k + 1) (t + dur k + 1)
        else fundConfirmLoop polls dur (k + 1) (t + dur k + 1 + 2000)
    | .checkThrow => fundConfirmLoop polls dur (k + 1) (t + dur k + 1)
  else false
termination_by 30000 - t
decreasing_by
  all_goals omega

/-- Result of `fundTraderWallet`: the signature returned or error thrown,
plus every signature assigned by a send across the attempts. -/
structure FundResult where
  result : Except String String
  sigs : List String
  deriving Repr

/-- The `for (attempt = 1; attempt <= maxRetries; attempt++)` loop of
`fundTraderWallet` (`maxRetries = 3`): each attempt sends a fresh transfer
transaction; a confirmed wait returns its signature; a timeout or send
error on the final attempt surfaces as a thrown error.  `attempt` is
0-based; `remaining` counts attempts still allowed. -/
def fundTraderWalletGo (env : FundEnv) : (attempt remaining : Nat) → FundResult
  | _, 0 => { result := .error "loop exit", sigs := [] }
  | attempt, r + 1 =>
      match env.sendOk attempt with
      | none =>
          if r = 0 then
            { result := .error "All funding attempts failed", sigs := [] }
          else
            let rest := fundTraderWalletGo env (attempt + 1) r
            { result := rest.result, sigs := rest.sigs }
      | some sig =>
          if fundConfirmLoop (env.polls attempt) (env.checkDur attempt) 0 0 then
            { result := .ok sig, sigs := [sig] }
          else if r = 0 then
            { result := .error "Transaction confirmation timed out", sigs := [sig] }
          else
            let rest := fundTraderWalletGo env (attempt + 1) r
            { result := rest.result, sigs := sig :: rest.sigs }

/-- `SimpleVolumeBot.fundTraderWallet`, with the source's
`maxRetries = 3`. -/
def fundTraderWallet (env : FundEnv) : FundResult :=
  fundTraderWalletGo env 0 3

/-- A funding attempt fails when its send throws or its wait loop times
out without confirming. -/
def fundAttemptFails (env : FundEnv) (n : Nat) : Prop :=
  env.sendOk n = none ∨ fundConfirmLoop (env.polls n) (env.checkDur n) 0 0 = false

/-- Funding environment in which every attempt times out: each send
succeeds, but each status check is so slow that the 30-second ceiling
passes after the first pending response. -/
def envFundFail : FundEnv :=
  { sendOk := fun _ => some "sigF"
    polls := fun _ _ => .value (some ⟨none, none⟩)
    checkDur := fun _ _ => 27999 }

/-- Environment of one `abortableResender` task: the value of the shared
`abortSignal.aborted` flag at its `k`-th check, the already-signed
serialized payload captured by the closure, and the network's
(content-determined) signature assignment for raw payloads. -/
structure ResendEnv where
  aborted : Nat → Bool
  payload : List Nat
  sigOf : List Nat → String

/-- One `sendRawTransaction` call performed by the resender: the raw bytes
sent, the `skipPreflight` option used, and the time (ms after the resender
started) at which the call was made. -/
structure SendEvent where
  payload : List Nat
  skipPreflight : Bool
  time : Nat
  deriving DecidableEq, Repr

/-- The `while (true)` loop of `abortableResender`: sleep 2000 ms, check
the abort signal, and if not aborted re-broadcast the same serialized
payload with `skipPreflight: true`.  `fuel` bounds how many iterations are
observed (the source loop runs until aborted); `k` numbers the abort
checks; `t` is the elapsed time. -/
def abortableResender (env : ResendEnv) : Nat → Nat → Nat → List SendEvent
  | 0, _, _ => []
  | fuel + 1, k, t =>
      let tSend := t + 2000
      if env.aborted k then []
      else
        { payload := env.payload, skipPreflight := true, time := tSend }
          :: abortableResender env fuel (k + 1) tSend

/-- Environment for the resender witnesses: the cancellation signal
becomes set from the third check onwards. -/
def envResend : ResendEnv :=
  { aborted := fun k => decide (2 ≤ k)
    payload := [7, 7, 7]
    sigOf := fun _ => "sigR" }

/-- One response of the bundle status endpoint inside
`waitForBundleConfirmation`: the request/parse threw (caught and logged),
or the reply carried no `result.value[0]`, or it reported a
`confirmation_status` string. -/
inductive BundlePoll where
  | fetchError
  | noValue
  | status (s : String)
  deriving DecidableEq, Repr

/-- Environment of one `waitForBundleConfirmation` call: the status
responses in poll order and the wall-clock time each status query itself
consumes (on top of the fixed 1000 ms sleep per iteration). -/
structure BundleEnv where
  polls : Nat → BundlePoll
  queryDur : Nat → Nat

/-- The `while (Date.now() < maxTime)` loop of
`waitForBundleConfirmation`, polling at the fixed `pollInterval = 1000`
ms; `t` is the elapsed wall-clock time since entry. -/
def waitLoop (env : BundleEnv) (maxTime : Nat) (k t : Nat) : Except String String :=
  if _h : t < maxTime then
    match env.polls k with
    | .status s =>
        if s = "confirmed" || s = "finalized" then Except.ok s
        else waitLoop env maxTime (k + 1) (t + env.queryDur k + 1000)
    | .fetchError => waitLoop env maxTime (k + 1) (t + env.queryDur k + 1000)
    | .noValue => waitLoop env maxTime (k + 1) (t + env.queryDur k + 1000)
  else Except.error "Bundle confirmation timed out"
termination_by maxTime - t
decreasing_by
  all_goals omega

/-- `waitForBundleConfirmation`, with the source's default
`timeout = 45000` ms. -/
def waitForBundleConfirmation (env : BundleEnv) (timeout : Nat := 45000) :
    Except String String :=
  waitLoop env timeout 0 0

lemma confirmLoop_err_stop (polls : Nat → PollResponse) (d : Nat) :
    ∀ k j a r, a + k < 5 →
    (∀ i, i < k → isPendingResp (polls (j + i)) = true) →
    isErrResp (polls (j + k)) = true →
    (confirmLoop polls d j a r).exit = .failedStatus ∧
    (confirmLoop polls d j a r).pollCount = k + 1 := by
  intro k
  induction k with
  | zero =>
    intro j a r ha _ herr
    unfold confirmLoop
    cases hpj : polls j with
    | ok v =>
      have herr' : statusErrSet v = true := by
        simpa [isErrResp, hpj] using herr
      simp [show ¬ 5 ≤ a by omega, hpj, herr']
    | rpcError b =>
      simp [isErrResp, hpj] at herr
  | succ k ih =>
    intro j a r ha hpre herr
    have hp0 : isPendingResp (polls j) = true := by
      simpa using hpre 0 (by omega)
    cases hpj : polls j with
    | ok v =>
      have hv : statusErrSet v = false ∧ statusConfirmed v = false := by
        have := hp0
        rw [hpj] at this
        simpa [isPendingResp] using this
      have hrec := ih (j + 1) (a + 1) r (by omega)
        (fun i hi => by
          have := hpre (i + 1) (by omega)
          simpa [Nat.add_assoc, Nat.add_comm 1 i] using this)
        (by
          have : j + 1 + k = j + (k + 1) := by omega
          rw [this]
          exact herr)
      unfold confirmLoop
      simp [show ¬ 5 ≤ a by omega, hpj, hv.1, hv.2, hrec.1, hrec.2]
    | rpcError b =>
      rw [hpj] at hp0
      simp [isPendingResp] at hp0

lemma confirmLoop_rl_geometric (polls : Nat → PollResponse) (d : Nat) :
    ∀ j a r, ∃ k, k ≤ 3 - r ∧
    (confirmLoop polls d j a r).rlDelays
      = (List.range k).map (fun i => 1000 * 2 ^ (r + 1 + i)) := by
  intro j a r
  induction j, a, r using confirmLoop.induct polls d with
  | case1 j a r ha =>
    refine ⟨0, by omega, ?_⟩
    unfold confirmLoop
    simp [ha]
  | case2 j a r ha v hpj herr =>
    refine ⟨0, by omega, ?_⟩
    unfold confirmLoop
    simp [ha, hpj, herr]
  | case3 j a r ha v hpj herr hconf =>
    refine ⟨0, by omega, ?_⟩
    unfold confirmLoop
    simp [ha, hpj, herr, hconf]
  | case4 j a r ha v hpj herr hconf ih =>
    obtain ⟨k, hk, hdel⟩ := ih
    refine ⟨k, hk, ?_⟩
    unfold confirmLoop
    simp [ha, hpj, herr, hconf, hdel]
  | case5 j a r ha hover hpj =>
    refine ⟨0, by omega, ?_⟩
    unfold confirmLoop
    simp [ha, hpj, hover]
  | case6 j a r ha hle hpj ih =>
    obtain ⟨k, hk, hdel⟩ := ih
    refine ⟨k + 1, by omega, ?_⟩
    unfold confirmLoop
    simp [ha, hpj, hle, hdel, List.range_succ_eq_map, List.map_map]
    intro i _
    omega
  | case7 j a r ha b hpj hb =>
    refine ⟨0, by omega, ?_⟩
    unfold confirmLoop
    have hb' : b = false := by simpa using hb
    subst hb'
    simp [ha, hpj]

lemma confirmLoop_429_exhaust (polls : Nat → PollResponse) (d : Nat)
    (h429 : ∀ i, i < 4 → polls i = .rpcError true) :
    (confirmLoop polls d 0 0 0).exit = .fallbackRateLimit := by
  have h0 := h429 0 (by omega)
  have h1 := h429 1 (by omega)
  have h2 := h429 2 (by omega)
  have h3 := h429 3 (by omega)
  unfold confirmLoop
  rw [h0]
  simp only [show ¬ (5:Nat) ≤ 0 by omega, if_true, if_false, ite_true, ite_false,
    show ¬ (3:Nat) < 0 + 1 by omega]
  unfold confirmLoop
  rw [h1]
  simp only [show ¬ (5:Nat) ≤ 0 by omega, show ¬ (3:Nat) < 1 + 1 by omega,
    ite_true, ite_false]
  unfold confirmLoop
  rw [h2]
  simp only [show ¬ (5:Nat) ≤ 0 by omega, show ¬ (3:Nat) < 2 + 1 by omega,
    ite_true, ite_false]
  unfold confirmLoop
  rw [h3]
  simp [show (3:Nat) < 3 + 1 by omega]

/-- C3: a status response containing an explicit on-chain execution error
makes `_confirmTransaction` return the failed outcome (`false`) on that
same poll cycle: after `k` pending polls and an error response on poll
`k`, exactly `k + 1` status queries are made and no further polling
occurs, regardless of the remaining attempt and rate-limit budgets. -/
theorem confirm_onchain_error_short_circuit (env : ConfirmEnv)
    (l : BlockhashLease) (k : Nat)
    (hl : env.latest = .ok l) (hk : k < 5)
    (hpre : ∀ i, i < k → isPendingResp (env.polls i) = true)
    (herr : isErrResp (env.polls k) = true) :
    _confirmTransaction env = false ∧
    (confirmLoop env.polls confirmationSettings.initialDelay 0 0 0).pollCount = k + 1 := by
  have h := confirmLoop_err_stop env.polls confirmationSettings.initialDelay k 0 0 0
    (by omega) (by simpa using hpre) (by simpa using herr)
  refine ⟨?_, h.2⟩
  unfold _confirmTransaction
  rw [hl]
  simp [h.1]

theorem confirm_onchain_error_short_circuit_witness :
    _confirmTransaction envC3 = false ∧
    (confirmLoop envC3.polls confirmationSettings.initialDelay 0 0 0).pollCount = 2 + 1 :=
  confirm_onchain_error_short_circuit envC3 ⟨"hash3", 100⟩ 2 rfl (by omega)
    (fun i hi => by interval_cases i <;> rfl) rfl

/-- C4: in every run of the confirmation poller, the sequence of
rate-limit (HTTP 429) backoff delays is the geometric sequence
`1000 · 2^(retry)` — so each delay is at least the previous one — and at
most 3 rate-limit retries are ever slept before the fallback path is
taken.  The main polling backoff is accounted separately (in
`mainDelays`), with its own base `initialDelay = 3000`. -/
theorem confirm_rate_limit_backoff_monotone_bounded (env : ConfirmEnv) :
    (confirmLoop env.polls confirmationSettings.initialDelay 0 0 0).rlDelays.length ≤ 3 ∧
    List.Sorted (· ≤ ·) (confirmLoop env.polls confirmationSettings.initialDelay 0 0 0).rlDelays ∧
    (confirmLoop env.polls confirmationSettings.initialDelay 0 0 0).rlDelays
      = (List.range
          (confirmLoop env.polls confirmationSettings.initialDelay 0 0 0).rlDelays.length).map
          (fun i => 1000 * 2 ^ (i + 1)) := by
  obtain ⟨k, hk, hdel⟩ :=
    confirmLoop_rl_geometric env.polls confirmationSettings.initialDelay 0 0 0
  have hk3 : k ≤ 3 := by omega
  rw [hdel]
  interval_cases k <;> simp <;> decide

/-- C2: when the rate-limit retry budget is exhausted (four consecutive
429 transport errors, i.e. three backoff retries followed by a fourth 429),
`_confirmTransaction` queries the secondary status service and returns its
verdict. -/
theorem confirm_rate_limit_exhaustion_falls_back (env : ConfirmEnv)
    (l : BlockhashLease) (b : Bool)
    (hl : env.latest = .ok l)
    (h429 : ∀ i, i < 4 → env.polls i = .rpcError true)
    (hsol : env.solscan = .ok b) :
    _confirmTransaction env = b := by
  have hexit :=
    confirmLoop_429_exhaust env.polls confirmationSettings.initialDelay h429
  unfold _confirmTransaction
  rw [hl]
  simp [hexit, hsol]

theorem confirm_rate_limit_exhaustion_falls_back_witness :
    _confirmTransaction envC2 = true :=
  confirm_rate_limit_exhaustion_falls_back envC2 ⟨"hash2", 100⟩ true rfl
    (fun _ _ => rfl) rfl

/-- C1 (bug evidence): with the network height beyond the lease's last
valid height from the very first polling step, `_confirmTransaction` does
not exit with any expiry outcome: it polls all five times, exits through
the max-attempts fallback, and its boolean result is independent of the
network height altogether — the source never reads the height nor the
lease it fetched. -/
theorem confirm_ignores_expiry_height :
    leaseC1.lastValidBlockHeight < envC1.heights 0 ∧
    (confirmLoop envC1.polls confirmationSettings.initialDelay 0 0 0).exit
      = .fallbackMaxAttempts ∧
    (confirmLoop envC1.polls confirmationSettings.initialDelay 0 0 0).pollCount = 5 ∧
    _confirmTransaction envC1 = false ∧
    (∀ h : Nat → Nat,
      _confirmTransaction { envC1 with heights := h } = _confirmTransaction envC1) := by
  have hloop :
      confirmLoop envC1.polls confirmationSettings.initialDelay 0 0 0
        = { exit := .fallbackMaxAttempts, pollCount := 5,
            rlDelays := [],
            mainDelays := [6000, 12000, 24000, 48000, 96000] } := by
    simp [confirmLoop, envC1, statusErrSet, statusConfirmed, confirmationSettings]
  refine ⟨by decide, ?_, ?_, ?_, fun h => rfl⟩
  · rw [hloop]
  · rw [hloop]
  · unfold _confirmTransaction
    rw [show envC1.latest = .ok leaseC1 from rfl, hloop]
    rfl

/-- C10: `_confirmTransaction` is a total function into `Bool`; every
internal error is absorbed by the outermost handler and mapped to `false`:
a non-429 transport error re-thrown inside the polling loop, a failing
initial `getLatestBlockhash`, and a failing secondary-status fallback all
yield the result `false`, with no error detail in the result. -/
theorem confirmTransaction_total_absorbs_errors (env : ConfirmEnv) :
    ((confirmLoop env.polls confirmationSettings.initialDelay 0 0 0).exit = .rethrown →
      _confirmTransaction env = false) ∧
    (env.latest = .error () → _confirmTransaction env = false) ∧
    (((confirmLoop env.polls confirmationSettings.initialDelay 0 0 0).exit
        = .fallbackRateLimit ∨
      (confirmLoop env.polls confirmationSettings.initialDelay 0 0 0).exit
        = .fallbackMaxAttempts) →
      env.solscan = .error () → _confirmTransaction env = false) := by
  refine ⟨?_, ?_, ?_⟩
  · intro hre
    unfold _confirmTransaction
    cases hl : env.latest with
    | error e => rfl
    | ok l => simp [hre]
  · intro hle
    unfold _confirmTransaction
    rw [hle]
  · intro hfb hsol
    unfold _confirmTransaction
    cases hl : env.latest with
    | error e => rfl
    | ok l => rcases hfb with h | h <;> simp [h, hsol]

theorem confirmTransaction_total_absorbs_errors_witness :
    (confirmLoop envC10.polls confirmationSettings.initialDelay 0 0 0).exit
      = .rethrown ∧
    _confirmTransaction envC10 = false := by
  have hexit :
      (confirmLoop envC10.polls confirmationSettings.initialDelay 0 0 0).exit
        = .rethrown := by
    simp [confirmLoop, envC10]
  exact ⟨hexit, (confirmTransaction_total_absorbs_errors envC10).1 hexit⟩

lemma sendAndConfirmGo_attempts (env : RetryEnv) :
    ∀ r attempt, ∃ n, n ≤ r ∧
    (sendAndConfirmGo env attempt r).attempts
      = (List.range n).map (fun i => attemptRec env (attempt + i)) := by
  intro r
  induction r with
  | zero =>
    intro attempt
    exact ⟨0, le_refl 0, by simp [sendAndConfirmGo]⟩
  | succ r ih =>
    intro attempt
    have hcons : ∀ n, attemptRec env attempt ::
        (List.range n).map (fun i => attemptRec env (attempt + 1 + i))
        = (List.range (n + 1)).map (fun i => attemptRec env (attempt + i)) := by
      intro n
      rw [List.range_succ_eq_map, List.map_cons, List.map_map]
      simp only [Nat.add_zero]
      congr 1
      apply List.map_congr_left
      intro i _
      simp only [Function.comp_apply]
      congr 1
      omega
    cases hsend : env.sendOk attempt with
    | none =>
      rcases Nat.eq_zero_or_pos r with hr | hr
      · subst hr
        exact ⟨1, by omega, by simp [sendAndConfirmGo, hsend, attemptRec, List.range_succ]⟩
      · obtain ⟨n, hn, hrest⟩ := ih (attempt + 1)
        refine ⟨n + 1, by omega, ?_⟩
        have hr0 : ¬ r = 0 := by omega
        simp only [sendAndConfirmGo, hsend, hr0, if_false, ite_false]
        rw [hrest, hcons n]
    | some sig =>
      cases hconf : env.confirmOutcome attempt with
      | confirmedOk =>
        exact ⟨1, by omega, by simp [sendAndConfirmGo, hsend, hconf, attemptRec, List.range_succ]⟩
      | expired =>
        rcases Nat.eq_zero_or_pos r with hr | hr
        · subst hr
          exact ⟨1, by omega, by simp [sendAndConfirmGo, hsend, hconf, attemptRec, List.range_succ]⟩
        · obtain ⟨n, hn, hrest⟩ := ih (attempt + 1)
          refine ⟨n + 1, by omega, ?_⟩
          have hr0 : ¬ r = 0 := by omega
          simp only [sendAndConfirmGo, hsend, hconf, hr0, if_false, ite_false]
          rw [hrest, hcons n]
      | otherError =>
        rcases Nat.eq_zero_or_pos r with hr | hr
        · subst hr
          exact ⟨1, by omega, by simp [sendAndConfirmGo, hsend, hconf, attemptRec, List.range_succ]⟩
        · obtain ⟨n, hn, hrest⟩ := ih (attempt + 1)
          refine ⟨n + 1, by omega, ?_⟩
          have hr0 : ¬ r = 0 := by omega
          simp only [sendAndConfirmGo, hsend, hconf, hr0, if_false, ite_false]
          rw [hrest, hcons n]

lemma sendAndConfirmGo_allFail (env : RetryEnv) (hfail : ∀ n, attemptFails env n) :
    ∀ r attempt, ∃ msg, (sendAndConfirmGo env attempt r).result = .error msg := by
  intro r
  induction r with
  | zero => exact fun attempt => ⟨"no attempts", rfl⟩
  | succ r ih =>
    intro attempt
    cases hsend : env.sendOk attempt with
    | none =>
      rcases Nat.eq_zero_or_pos r with hr | hr
      · subst hr
        exact ⟨"All attempts failed", by simp [sendAndConfirmGo, hsend]⟩
      · obtain ⟨msg, hmsg⟩ := ih (attempt + 1)
        have hr0 : ¬ r = 0 := by omega
        exact ⟨msg, by simp [sendAndConfirmGo, hsend, hr0, hmsg]⟩
    | some sig =>
      have hconf : env.confirmOutcome attempt ≠ .confirmedOk := by
        rcases hfail attempt with h | h
        · rw [hsend] at h
          cases h
        · exact h
      cases hc : env.confirmOutcome attempt with
      | confirmedOk => exact absurd hc hconf
      | expired =>
        rcases Nat.eq_zero_or_pos r with hr | hr
        · subst hr
          exact ⟨"All attempts failed", by simp [sendAndConfirmGo, hsend, hc]⟩
        · obtain ⟨msg, hmsg⟩ := ih (attempt + 1)
          have hr0 : ¬ r = 0 := by omega
          exact ⟨msg, by simp [sendAndConfirmGo, hsend, hc, hr0, hmsg]⟩
      | otherError =>
        rcases Nat.eq_zero_or_pos r with hr | hr
        · subst hr
          exact ⟨"All attempts failed", by simp [sendAndConfirmGo, hsend, hc]⟩
        · obtain ⟨msg, hmsg⟩ := ih (attempt + 1)
          have hr0 : ¬ r = 0 := by omega
          exact ⟨msg, by simp [sendAndConfirmGo, hsend, hc, hr0, hmsg]⟩

lemma fundTraderWalletGo_sigs_le (env : FundEnv) :
    ∀ r attempt, (fundTraderWalletGo env attempt r).sigs.length ≤ r := by
  intro r
  induction r with
  | zero => intro attempt; simp [fundTraderWalletGo]
  | succ r ih =>
    intro attempt
    cases hsend : env.sendOk attempt with
    | none =>
      rcases Nat.eq_zero_or_pos r with hr | hr
      · subst hr
        simp [fundTraderWalletGo, hsend]
      · have hr0 : ¬ r = 0 := by omega
        have := ih (attempt + 1)
        simp only [fundTraderWalletGo, hsend, hr0, if_false, ite_false]
        omega
    | some sig =>
      by_cases hc : fundConfirmLoop (env.polls attempt) (env.checkDur attempt) 0 0
      · simp [fundTraderWalletGo, hsend, hc]
      · rcases Nat.eq_zero_or_pos r with hr | hr
        · subst hr
          simp [fundTraderWalletGo, hsend, hc]
        · have hr0 : ¬ r = 0 := by omega
          have := ih (attempt + 1)
          simp [fundTraderWalletGo, hsend, hc, hr0]
          omega

lemma fundTraderWalletGo_allFail (env : FundEnv)
    (hfail : ∀ n, fundAttemptFails env n) :
    ∀ r attempt, ∃ msg, (fundTraderWalletGo env attempt r).result = .error msg := by
  intro r
  induction r with
  | zero => exact fun attempt => ⟨"loop exit", rfl⟩
  | succ r ih =>
    intro attempt
    cases hsend : env.sendOk attempt with
    | none =>
      rcases Nat.eq_zero_or_pos r with hr | hr
      · subst hr
        exact ⟨"All funding attempts failed", by simp [fundTraderWalletGo, hsend]⟩
      · obtain ⟨msg, hmsg⟩ := ih (attempt + 1)
        have hr0 : ¬ r = 0 := by omega
        exact ⟨msg, by simp [fundTraderWalletGo, hsend, hr0, hmsg]⟩
    | some sig =>
      have hc : fundConfirmLoop (env.polls attempt) (env.checkDur attempt) 0 0 = false := by
        rcases hfail attempt with h | h
        · rw [hsend] at h
          cases h
        · exact h
      rcases Nat.eq_zero_or_pos r with hr | hr
      · subst hr
        exact ⟨"Transaction confirmation timed out",
          by simp [fundTraderWalletGo, hsend, hc]⟩
      · obtain ⟨msg, hmsg⟩ := ih (attempt + 1)
        have hr0 : ¬ r = 0 := by omega
        exact ⟨msg, by simp [fundTraderWalletGo, hsend, hc, hr0, hmsg]⟩

/-- C5: each of the two send-and-confirm retry loops performs at most its
configured maximum number of submission attempts (default 3), hence
produces at most that many network-assigned identifiers; and when every
attempt fails, each loop surfaces a thrown error to the caller. -/
theorem sendAndConfirm_attempt_ceiling (env : RetryEnv) (fenv : FundEnv)
    (maxAttempts : Nat) :
    (_sendAndConfirmTransactionWithRetry env maxAttempts).attempts.length ≤ maxAttempts ∧
    ((_sendAndConfirmTransactionWithRetry env maxAttempts).attempts.filterMap
        AttemptRecord.sig).length ≤ maxAttempts ∧
    ((∀ n, attemptFails env n) →
      ∃ msg, (_sendAndConfirmTransactionWithRetry env maxAttempts).result = .error msg) ∧
    (fundTraderWallet fenv).sigs.length ≤ 3 ∧
    ((∀ n, fundAttemptFails fenv n) →
      ∃ msg, (fundTraderWallet fenv).result = .error msg) := by
  obtain ⟨n, hn, hatt⟩ := sendAndConfirmGo_attempts env maxAttempts 0
  have hlen : (_sendAndConfirmTransactionWithRetry env maxAttempts).attempts.length
      ≤ maxAttempts := by
    unfold _sendAndConfirmTransactionWithRetry
    rw [hatt]
    simpa using hn
  refine ⟨hlen, le_trans (List.length_filterMap_le _ _) hlen, ?_, ?_, ?_⟩
  · intro hfail
    exact sendAndConfirmGo_allFail env hfail maxAttempts 0
  · exact fundTraderWalletGo_sigs_le fenv 3 0
  · intro hfail
    exact fundTraderWalletGo_allFail fenv hfail 3 0

theorem sendAndConfirm_attempt_ceiling_witness :
    (_sendAndConfirmTransactionWithRetry envRetryFail 3).attempts.length ≤ 3 ∧
    ((_sendAndConfirmTransactionWithRetry envRetryFail 3).attempts.filterMap
        AttemptRecord.sig).length ≤ 3 ∧
    (∃ msg, (_sendAndConfirmTransactionWithRetry envRetryFail 3).result = .error msg) ∧
    (fundTraderWallet envFundFail).sigs.length ≤ 3 ∧
    (∃ msg, (fundTraderWallet envFundFail).result = .error msg) := by
  obtain ⟨h1, h2, h3, h4, h5⟩ := sendAndConfirm_attempt_ceiling envRetryFail envFundFail 3
  refine ⟨h1, h2, h3 (fun n => Or.inr (fun h => by cases h)), h4, h5 ?_⟩
  intro n
  refine Or.inr ?_
  simp [fundConfirmLoop, envFundFail, statusConfirmed, statusErrSet]

/-- C6: every attempt of the retry loop uses the lease fetched for that
very attempt (the `i`-th attempt record holds the `i`-th freshly fetched
lease, and the transaction is re-signed with that lease's blockhash);
consequently, when the network hands out distinct lease instances, no two
attempts — in particular no attempt after one observed expired — share a
lease. -/
theorem sendAndConfirm_fresh_lease_per_attempt (env : RetryEnv) (maxAttempts : Nat)
    (hfresh : Function.Injective env.leases) :
    (_sendAndConfirmTransactionWithRetry env maxAttempts).attempts
      = (List.range
          (_sendAndConfirmTransactionWithRetry env maxAttempts).attempts.length).map
          (fun i => attemptRec env i) ∧
    (∀ rec, rec ∈ (_sendAndConfirmTransactionWithRetry env maxAttempts).attempts →
      rec.signedBlockhash = rec.lease.blockhash) ∧
    ((_sendAndConfirmTransactionWithRetry env maxAttempts).attempts.map
        AttemptRecord.lease).Pairwise (· ≠ ·) := by
  obtain ⟨n, hn, hatt⟩ := sendAndConfirmGo_attempts env maxAttempts 0
  have hatt' : (_sendAndConfirmTransactionWithRetry env maxAttempts).attempts
      = (List.range n).map (fun i => attemptRec env i) := by
    unfold _sendAndConfirmTransactionWithRetry
    rw [hatt]
    simp
  refine ⟨?_, ?_, ?_⟩
  · rw [hatt']
    simp
  · intro rec hrec
    rw [hatt'] at hrec
    simp only [List.mem_map] at hrec
    obtain ⟨i, _, hi⟩ := hrec
    rw [← hi]
    rfl
  · rw [hatt', List.map_map]
    have hpw := List.pairwise_lt_range n
    refine hpw.map _ ?_
    intro a b hab
    simp only [Function.comp_apply, attemptRec, ne_eq]
    intro hcontra
    exact absurd (hfresh hcontra) (by omega)

theorem sendAndConfirm_fresh_lease_per_attempt_witness :
    (_sendAndConfirmTransactionWithRetry envRetryFail 3).attempts
      = (List.range
          (_sendAndConfirmTransactionWithRetry envRetryFail 3).attempts.length).map
          (fun i => attemptRec envRetryFail i) ∧
    (attemptRec envRetryFail 0).signedBlockhash
      = (attemptRec envRetryFail 0).lease.blockhash ∧
    ((_sendAndConfirmTransactionWithRetry envRetryFail 3).attempts.map
        AttemptRecord.lease).Pairwise (· ≠ ·) := by
  obtain ⟨h1, h2, h3⟩ := sendAndConfirm_fresh_lease_per_attempt envRetryFail 3
    (fun a b h => by simpa using congrArg BlockhashLease.lastValidBlockHeight h)
  refine ⟨h1, h2 (attemptRec envRetryFail 0) ?_, h3⟩
  rw [h1]
  simp [_sendAndConfirmTransactionWithRetry, sendAndConfirmGo, envRetryFail]
  exact ⟨0, by omega, rfl⟩

lemma abortableResender_shape (env : ResendEnv) :
    ∀ fuel k t, ∃ n, n ≤ fuel ∧
    abortableResender env fuel k t
      = (List.range n).map
          (fun i => { payload := env.payload, skipPreflight := true,
                      time := t + 2000 * (i + 1) }) := by
  intro fuel
  induction fuel with
  | zero => exact fun k t => ⟨0, le_refl 0, rfl⟩
  | succ fuel ih =>
    intro k t
    by_cases hab : env.aborted k
    · exact ⟨0, by omega, by simp [abortableResender, hab]⟩
    · obtain ⟨n, hn, hrest⟩ := ih (k + 1) (t + 2000)
      refine ⟨n + 1, by omega, ?_⟩
      have hstep : abortableResender env (fuel + 1) k t
          = { payload := env.payload, skipPreflight := true, time := t + 2000 }
              :: abortableResender env fuel (k + 1) (t + 2000) := by
        simp [abortableResender, hab]
      rw [hstep, hrest, List.range_succ_eq_map, List.map_cons, List.map_map]
      simp only [List.cons.injEq]
      refine ⟨by norm_num, ?_⟩
      apply List.map_congr_left
      intro i _
      simp only [Function.comp_apply, SendEvent.mk.injEq, true_and]
      omega

/-- C7: every resend performed by `abortableResender` re-broadcasts the
very same serialized payload with validation skipped, at a fixed 2-second
cadence (the `i`-th resend happens at `2000·(i+1)` ms); the payload is
never mutated or re-signed, so the network-assigned signature of every
resend equals that of the original submission. -/
theorem resender_idempotent_fixed_interval (env : ResendEnv) (fuel : Nat) :
    (∃ n, n ≤ fuel ∧
      abortableResender env fuel 0 0
        = (List.range n).map
            (fun i => { payload := env.payload, skipPreflight := true,
                        time := 2000 * (i + 1) })) ∧
    (∀ e, e ∈ abortableResender env fuel 0 0 →
      e.payload = env.payload ∧ e.skipPreflight = true ∧
      env.sigOf e.payload = env.sigOf env.payload) := by
  obtain ⟨n, hn, hshape⟩ := abortableResender_shape env fuel 0 0
  have hshape' : abortableResender env fuel 0 0
      = (List.range n).map
          (fun i => { payload := env.payload, skipPreflight := true,
                      time := 2000 * (i + 1) }) := by
    rw [hshape]
    apply List.map_congr_left
    intro i _
    simp
  refine ⟨⟨n, hn, hshape'⟩, ?_⟩
  intro e he
  rw [hshape'] at he
  simp only [List.mem_map] at he
  obtain ⟨i, _, hi⟩ := he
  rw [← hi]
  exact ⟨rfl, rfl, rfl⟩

theorem resender_idempotent_fixed_interval_witness :
    (∃ n, n ≤ 5 ∧
      abortableResender envResend 5 0 0
        = (List.range n).map
            (fun i => { payload := envResend.payload, skipPreflight := true,
                        time := 2000 * (i + 1) })) ∧
    ((⟨[7, 7, 7], true, 2000⟩ : SendEvent).payload = envResend.payload ∧
      (⟨[7, 7, 7], true, 2000⟩ : SendEvent).skipPreflight = true ∧
      envResend.sigOf (⟨[7, 7, 7], true, 2000⟩ : SendEvent).payload
        = envResend.sigOf envResend.payload) := by
  obtain ⟨h1, h2⟩ := resender_idempotent_fixed_interval envResend 5
  exact ⟨h1, h2 ⟨[7, 7, 7], true, 2000⟩ (by decide)⟩

/-- C8: cancellation of the resender is cooperative: the shared signal is
checked before each resend (every resend performed corresponds to a check
that read `false`), and once the signal is set at some check no resend at
or after that check is ever initiated — the loop exits at its next check
point. -/
theorem resender_cooperative_cancellation (env : ResendEnv) (fuel k t : Nat) :
    (∀ i, i < (abortableResender env fuel k t).length → env.aborted (k + i) = false) ∧
    (∀ j, env.aborted (k + j) = true → (abortableResender env fuel k t).length ≤ j) := by
  induction fuel generalizing k t with
  | zero => exact ⟨fun i hi => by simp [abortableResender] at hi, fun j _ => by
      simp [abortableResender]⟩
  | succ fuel ih =>
    by_cases hab : env.aborted k
    · refine ⟨fun i hi => ?_, fun j _ => ?_⟩
      · simp [abortableResender, hab] at hi
      · simp [abortableResender, hab]
    · obtain ⟨ih1, ih2⟩ := ih (k + 1) (t + 2000)
      have hlen : (abortableResender env (fuel + 1) k t).length
          = (abortableResender env fuel (k + 1) (t + 2000)).length + 1 := by
        simp [abortableResender, hab]
      refine ⟨fun i hi => ?_, fun j hj => ?_⟩
      · cases i with
        | zero =>
          simpa using eq_false_of_ne_true hab
        | succ i =>
          have := ih1 i (by omega)
          simpa [Nat.add_assoc, Nat.add_comm 1 i] using this
      · cases j with
        | zero =>
          exact absurd (by simpa using hj) hab
        | succ j =>
          have := ih2 j (by simpa [Nat.add_assoc, Nat.add_comm 1 j] using hj)
          omega

theorem resender_cooperative_cancellation_witness :
    envResend.aborted (0 + 1) = false ∧
    (abortableResender envResend 5 0 0).length ≤ 2 := by
  obtain ⟨h1, h2⟩ := resender_cooperative_cancellation envResend 5 0 0
  exact ⟨h1 1 (by decide), h2 2 (by decide)⟩

lemma waitLoop_terminal (env : BundleEnv) (maxTime : Nat) :
    ∀ k t, (∃ s, waitLoop env maxTime k t = .ok s ∧
      (s = "confirmed" ∨ s = "finalized")) ∨
    waitLoop env maxTime k t = .error "Bundle confirmation timed out" := by
  intro k t
  induction k, t using waitLoop.induct env maxTime with
  | case1 k t h s hpoll hterm =>
    refine Or.inl ⟨s, ?_, ?_⟩
    · unfold waitLoop
      simp [h, hpoll, hterm]
    · rcases Bool.or_eq_true_iff.mp hterm with hs | hs
      · exact Or.inl (by simpa using hs)
      · exact Or.inr (by simpa using hs)
  | case2 k t h s hpoll hterm ih =>
    rcases ih with ⟨s', hs', hd⟩ | herr
    · refine Or.inl ⟨s', ?_, hd⟩
      unfold waitLoop
      simpa [h, hpoll, hterm] using hs'
    · refine Or.inr ?_
      unfold waitLoop
      simpa [h, hpoll, hterm] using herr
  | case3 k t h hpoll ih =>
    rcases ih with ⟨s', hs', hd⟩ | herr
    · refine Or.inl ⟨s', ?_, hd⟩
      unfold waitLoop
      simpa [h, hpoll] using hs'
    · refine Or.inr ?_
      unfold waitLoop
      simpa [h, hpoll] using herr
  | case4 k t h hpoll ih =>
    rcases ih with ⟨s', hs', hd⟩ | herr
    · refine Or.inl ⟨s', ?_, hd⟩
      unfold waitLoop
      simpa [h, hpoll] using hs'
    · refine Or.inr ?_
      unfold waitLoop
      simpa [h, hpoll] using herr
  | case5 k t h =>
    refine Or.inr ?_
    unfold waitLoop
    simp [h]

/-- C9: for every bundle identifier and every behaviour of the status
endpoint, `waitForBundleConfirmation` terminates with either a
`confirmed`/`finalized` status returned within the wall-clock ceiling, or
the thrown timeout error once the ceiling elapses — it never polls
indefinitely and the timeout is visible to the caller. -/
theorem waitForBundleConfirmation_terminal (env : BundleEnv) (timeout : Nat) :
    (∃ s, waitForBundleConfirmation env timeout = .ok s ∧
      (s = "confirmed" ∨ s = "finalized")) ∨
    waitForBundleConfirmation env timeout = .error "Bundle confirmation timed out" :=
  waitLoop_terminal env timeout 0 0
